import Mathlib

/-!
Verification development for the ACDIN repository
(Autonomous Cross-Domain Integration Nexus).

Part 1 embeds the configuration validation of `src/acdin_coreconfig.py`
(pydantic `Field` constraints on `ACDINConfig`).

Part 2 embeds the module-registry / message-broker core.  That subsystem
is declared in `src/acdin_core__init__.py` (imports of `ModuleRegistry`,
`MessageBroker`, `Message`, `MessageType`, ...) but its implementation is
not part of the provided sources; the definitions in Part 2 are therefore
modelled from the specification's contracts (spec §3, §4.1–§4.3, §8).
-/

namespace ACDIN

/-! ## Part 1: configuration validation (`src/acdin_coreconfig.py`) -/

/-- Raw input to configuration construction, before pydantic validation.
The fields model exactly the constrained fields of `ACDINConfig`:
`firebase_project_id` is a required field with no default (`Field(...)`),
so its raw value is an `Option`; the three integer fields carry pydantic
`ge`/`le` bounds.  Unconstrained pass-through fields (`environment`,
`node_id`, `api_host`, paths, prefixes) carry no validation and are
omitted. -/
structure RawConfig where
  firebase_project_id : Option String
  api_port : Int
  discovery_poll_interval_seconds : Int
  heartbeat_timeout_seconds : Int
deriving DecidableEq, Repr

/-- A validated configuration, as accepted by `ACDINConfig`. -/
structure ACDINConfig where
  firebase_project_id : String
  api_port : Int
  discovery_poll_interval_seconds : Int
  heartbeat_timeout_seconds : Int
deriving DecidableEq, Repr

/-- Pydantic validation of `ACDINConfig` (src/acdin_coreconfig.py):
`firebase_project_id` is required (`Field(...)`); `api_port` has
`ge=1024, le=65535`; `discovery_poll_interval_seconds` has `ge=5`;
`heartbeat_timeout_seconds` has `ge=30`.  A constraint violation makes
construction fail instead of producing a config object. -/
def validateConfig (r : RawConfig) : Except String ACDINConfig :=
  match r.firebase_project_id with
  | none => .error "firebase_project_id: field required"
  | some pid =>
    if r.api_port < 1024 then .error "api_port: must be >= 1024"
    else if 65535 < r.api_port then .error "api_port: must be <= 65535"
    else if r.discovery_poll_interval_seconds < 5 then
      .error "discovery_poll_interval_seconds: must be >= 5"
    else if r.heartbeat_timeout_seconds < 30 then
      .error "heartbeat_timeout_seconds: must be >= 30"
    else .ok
      { firebase_project_id := pid
        api_port := r.api_port
        discovery_poll_interval_seconds := r.discovery_poll_interval_seconds
        heartbeat_timeout_seconds := r.heartbeat_timeout_seconds }

/-- C1: every accepted configuration has `discovery_poll_interval_seconds ≥ 5`,
and constructing a configuration from a raw value below 5 fails validation
rather than being accepted. -/
theorem discovery_poll_interval_ge_five :
    (∀ r cfg, validateConfig r = .ok cfg →
      5 ≤ cfg.discovery_poll_interval_seconds) ∧
    (∀ r, r.discovery_poll_interval_seconds < 5 →
      ∀ cfg, validateConfig r ≠ .ok cfg) := by
  constructor
  · intro r cfg h
    unfold validateConfig at h
    rcases hf : r.firebase_project_id with _ | pid <;> rw [hf] at h
    · exact absurd h (by simp)
    · by_cases h1 : r.api_port < 1024 <;> simp [h1] at h
      by_cases h2 : 65535 < r.api_port <;> simp [h2] at h
      by_cases h3 : r.discovery_poll_interval_seconds < 5 <;> simp [h3] at h
      by_cases h4 : r.heartbeat_timeout_seconds < 30 <;> simp [h4] at h
      rw [← h]
      exact Int.not_lt.mp h3
  · intro r hlt cfg h
    unfold validateConfig at h
    rcases hf : r.firebase_project_id with _ | pid <;> rw [hf] at h
    · exact absurd h (by simp)
    · by_cases h1 : r.api_port < 1024 <;> simp [h1] at h
      by_cases h2 : 65535 < r.api_port <;> simp [h2] at h
      simp [hlt] at h

/-- Witness for C1 at concrete inputs: the default raw value 30 is accepted
with the value preserved, and the raw value 3 is rejected. -/
theorem discovery_poll_interval_ge_five_witness :
    5 ≤ (ACDINConfig.mk "proj" 8000 30 120).discovery_poll_interval_seconds ∧
    ∀ cfg, validateConfig (RawConfig.mk (some "proj") 8000 3 120) ≠ .ok cfg :=
  ⟨discovery_poll_interval_ge_five.1 (RawConfig.mk (some "proj") 8000 30 120)
      (ACDINConfig.mk "proj" 8000 30 120) (by rfl),
   discovery_poll_interval_ge_five.2 (RawConfig.mk (some "proj") 8000 3 120)
      (by decide)⟩

/-- C2: every accepted configuration has `heartbeat_timeout_seconds ≥ 30`,
and constructing a configuration from a raw value below 30 fails validation
rather than being accepted. -/
theorem heartbeat_timeout_ge_thirty :
    (∀ r cfg, validateConfig r = .ok cfg →
      30 ≤ cfg.heartbeat_timeout_seconds) ∧
    (∀ r, r.heartbeat_timeout_seconds < 30 →
      ∀ cfg, validateConfig r ≠ .ok cfg) := by
  constructor
  · intro r cfg h
    unfold validateConfig at h
    rcases hf : r.firebase_project_id with _ | pid <;> rw [hf] at h
    · exact absurd h (by simp)
    · by_cases h1 : r.api_port < 1024 <;> simp [h1] at h
      by_cases h2 : 65535 < r.api_port <;> simp [h2] at h
      by_cases h3 : r.discovery_poll_interval_seconds < 5 <;> simp [h3] at h
      by_cases h4 : r.heartbeat_timeout_seconds < 30 <;> simp [h4] at h
      rw [← h]
      exact Int.not_lt.mp h4
  · intro r hlt cfg h
    unfold validateConfig at h
    rcases hf : r.firebase_project_id with _ | pid <;> rw [hf] at h
    · exact absurd h (by simp)
    · by_cases h1 : r.api_port < 1024 <;> simp [h1] at h
      by_cases h2 : 65535 < r.api_port <;> simp [h2] at h
      by_cases h3 : r.discovery_poll_interval_seconds < 5 <;> simp [h3] at h
      simp [hlt] at h

/-- Witness for C2 at concrete inputs: the default raw value 120 is accepted
with the value preserved, and the raw value 29 is rejected. -/
theorem heartbeat_timeout_ge_thirty_witness :
    30 ≤ (ACDINConfig.mk "proj" 8000 30 120).heartbeat_timeout_seconds ∧
    ∀ cfg, validateConfig (RawConfig.mk (some "proj") 8000 30 29) ≠ .ok cfg :=
  ⟨heartbeat_timeout_ge_thirty.1 (RawConfig.mk (some "proj") 8000 30 120)
      (ACDINConfig.mk "proj" 8000 30 120) (by rfl),
   heartbeat_timeout_ge_thirty.2 (RawConfig.mk (some "proj") 8000 30 29)
      (by decide)⟩

/-- C10: construction fails when `api_port` lies outside 1024..65535, and
fails when `firebase_project_id` is missing (required field, no default). -/
theorem api_port_range_and_project_id_required :
    (∀ r, (r.api_port < 1024 ∨ 65535 < r.api_port) →
      ∀ cfg, validateConfig r ≠ .ok cfg) ∧
    (∀ r, r.firebase_project_id = none →
      ∀ cfg, validateConfig r ≠ .ok cfg) ∧
    (∀ r cfg, validateConfig r = .ok cfg →
      1024 ≤ cfg.api_port ∧ cfg.api_port ≤ 65535 ∧
      r.firebase_project_id = some cfg.firebase_project_id) := by
  refine ⟨?_, ?_, ?_⟩
  · intro r hout cfg h
    unfold validateConfig at h
    rcases hf : r.firebase_project_id with _ | pid <;> rw [hf] at h
    · exact absurd h (by simp)
    · rcases hout with h1 | h2
      · simp [h1] at h
      · by_cases h1 : r.api_port < 1024 <;> simp [h1] at h
        simp [h2] at h
  · intro r hnone cfg h
    unfold validateConfig at h
    rw [hnone] at h
    exact absurd h (by simp)
  · intro r cfg h
    unfold validateConfig at h
    rcases hf : r.firebase_project_id with _ | pid <;> rw [hf] at h
    · exact absurd h (by simp)
    · by_cases h1 : r.api_port < 1024 <;> simp [h1] at h
      by_cases h2 : 65535 < r.api_port <;> simp [h2] at h
      by_cases h3 : r.discovery_poll_interval_seconds < 5 <;> simp [h3] at h
      by_cases h4 : r.heartbeat_timeout_seconds < 30 <;> simp [h4] at h
      rw [← h]
      exact ⟨Int.not_lt.mp h1, Int.not_lt.mp h2, rfl⟩

/-- Witness for C10 at concrete inputs: port 80 is rejected, port 70000 is
rejected, a missing project id is rejected, and an in-range accepted config
satisfies the bounds. -/
theorem api_port_range_and_project_id_required_witness :
    (∀ cfg, validateConfig (RawConfig.mk (some "proj") 80 30 120) ≠ .ok cfg) ∧
    (∀ cfg, validateConfig (RawConfig.mk (some "proj") 70000 30 120) ≠ .ok cfg) ∧
    (∀ cfg, validateConfig (RawConfig.mk none 8000 30 120) ≠ .ok cfg) ∧
    (1024 ≤ (ACDINConfig.mk "proj" 8000 30 120).api_port ∧
      (ACDINConfig.mk "proj" 8000 30 120).api_port ≤ 65535 ∧
      (RawConfig.mk (some "proj") 8000 30 120).firebase_project_id =
        some (ACDINConfig.mk "proj" 8000 30 120).firebase_project_id) :=
  ⟨api_port_range_and_project_id_required.1
      (RawConfig.mk (some "proj") 80 30 120) (Or.inl (by decide)),
   api_port_range_and_project_id_required.1
      (RawConfig.mk (some "proj") 70000 30 120) (Or.inr (by decide)),
   api_port_range_and_project_id_required.2.1
      (RawConfig.mk none 8000 30 120) (by rfl),
   api_port_range_and_project_id_required.2.2
      (RawConfig.mk (some "proj") 8000 30 120)
      (ACDINConfig.mk "proj" 8000 30 120) (by rfl)⟩

/-! ## Part 2: module registry and message broker core (spec §3, §4, §8)

The implementation of this subsystem is missing from the provided sources
(`src/acdin_core__init__.py` only imports it), so the following definitions
are modelled from the specification's contracts. -/

/-- Modelled from the spec: `ModuleStatus` is the enumeration
{REGISTERING, ACTIVE, DEGRADED, UNRESPONSIVE, DEREGISTERED} (spec §3). -/
inductive ModuleStatus
  | registering
  | active
  | degraded
  | unresponsive
  | deregistered
deriving DecidableEq, Repr

/-- Modelled from the spec: `ModuleRecord` holds the identity, capability
set, current status, last-heartbeat timestamp, registration timestamp and
opaque metadata of one module (spec §3).  Timestamps are naturals;
capabilities are opaque string tags. -/
structure ModuleRecord where
  module_id : String
  capabilities : List String
  status : ModuleStatus
  last_heartbeat : Nat
  registered_at : Nat
  metadata : List (String × String)
deriving DecidableEq, Repr

/-- Modelled from the spec: the error taxonomy of the record store and
broker (spec §7). -/
inductive CoreError
  | duplicateModule
  | unknownModule
  | noRecipients
  | queueFull
  | invalidMessage
deriving DecidableEq, Repr

/-- The Module Record Store state: the records, keyed by module identifier. -/
abbrev Store := List ModuleRecord

/-- Modelled from the spec: `get(module_id) -> ModuleRecord | absent`
(spec §4.1). -/
def lookupRecord (s : Store) (mid : String) : Option ModuleRecord :=
  s.find? (fun r => r.module_id = mid)

/-- The record created by a successful registration: status ACTIVE,
last heartbeat and registration time both `now` (spec §4.1). -/
def newRecord (now : Nat) (mid : String) (caps : List String)
    (md : List (String × String)) : ModuleRecord :=
  { module_id := mid
    capabilities := caps
    status := .active
    last_heartbeat := now
    registered_at := now
    metadata := md }

/-- Modelled from the spec: `register(module_id, capabilities, metadata)`
fails with `DuplicateModuleError` if `module_id` already maps to a
non-DEREGISTERED record; otherwise it creates a record with status=ACTIVE
and last_heartbeat=now (spec §4.1).  A DEREGISTERED record with the same
identifier is replaced by the fresh record. -/
def register (s : Store) (now : Nat) (mid : String) (caps : List String)
    (md : List (String × String)) : Except CoreError Store :=
  match lookupRecord s mid with
  | some r =>
      if r.status = .deregistered then
        .ok (newRecord now mid caps md :: s.filter (fun q => ¬ q.module_id = mid))
      else .error .duplicateModule
  | none => .ok (newRecord now mid caps md :: s)

/-- Modelled from the spec: `deregister(module_id)` is idempotent, sets
status=DEREGISTERED, and is a no-op if the module is absent or already
deregistered (spec §4.1).  Records are never hard-deleted. -/
def deregister (s : Store) (mid : String) : Store :=
  s.map (fun r => if r.module_id = mid then { r with status := .deregistered } else r)

/-- Modelled from the spec: `update_heartbeat(module_id)` fails with
`UnknownModuleError` if absent, refreshes last_heartbeat, and transitions
DEGRADED/UNRESPONSIVE back to ACTIVE; a heartbeat at any state except
DEREGISTERED resets the module to ACTIVE (spec §4.1, §4.2). -/
def update_heartbeat (s : Store) (now : Nat) (mid : String) :
    Except CoreError Store :=
  match lookupRecord s mid with
  | none => .error .unknownModule
  | some _ =>
      .ok (s.map (fun r =>
        if r.module_id = mid ∧ ¬ r.status = .deregistered then
          { r with status := .active, last_heartbeat := now }
        else r))

/-- Modelled from the spec: `find_by_capability(capability)` returns only
ACTIVE modules offering the capability (spec §4.1). -/
def find_by_capability (s : Store) (cap : String) : List String :=
  (s.filter (fun r => r.status = .active ∧ cap ∈ r.capabilities)).map
    (fun r => r.module_id)

/-- Modelled from the spec: one Heartbeat Monitor evaluation of a single
record at time `now`.  ACTIVE with no heartbeat for
`heartbeat_timeout_seconds` becomes DEGRADED; DEGRADED with no heartbeat
for an additional window of the same duration becomes UNRESPONSIVE
(spec §4.2). -/
def monitorStep (timeout now : Nat) (r : ModuleRecord) : ModuleRecord :=
  if r.status = .active ∧ r.last_heartbeat + timeout ≤ now then
    { r with status := .degraded }
  else if r.status = .degraded ∧ r.last_heartbeat + 2 * timeout ≤ now then
    { r with status := .unresponsive }
  else r

/-- Modelled from the spec: one Heartbeat Monitor pass scans all records
once and applies the status transitions (spec §4.2). -/
def monitorPass (s : Store) (timeout now : Nat) : Store :=
  s.map (monitorStep timeout now)

/-- C4: `register` fails with `DuplicateModuleError` iff the identifier
already maps to a non-DEREGISTERED record; otherwise it succeeds and the
store maps the identifier to a record with status ACTIVE and
last_heartbeat set to the current time. -/
theorem register_duplicate_iff (s : Store) (now : Nat) (mid : String)
    (caps : List String) (md : List (String × String)) :
    (register s now mid caps md = .error .duplicateModule ↔
      ∃ r, lookupRecord s mid = some r ∧ ¬ r.status = .deregistered) ∧
    ((¬ ∃ r, lookupRecord s mid = some r ∧ ¬ r.status = .deregistered) →
      ∃ s2, register s now mid caps md = .ok s2 ∧
        ∃ r2, lookupRecord s2 mid = some r2 ∧
          r2.status = .active ∧ r2.last_heartbeat = now ∧
          r2.capabilities = caps ∧ r2.metadata = md) := by
  constructor
  · constructor
    · intro h
      unfold register at h
      rcases hl : lookupRecord s mid with _ | r <;> rw [hl] at h
      · exact absurd h (by simp)
      · by_cases hd : r.status = .deregistered
        · simp [hd] at h
        · exact ⟨r, rfl, hd⟩
    · rintro ⟨r, hl, hd⟩
      unfold register
      rw [hl]
      simp [hd]
  · intro hno
    unfold register
    rcases hl : lookupRecord s mid with _ | r
    · exact ⟨_, rfl, newRecord now mid caps md, by simp [lookupRecord, newRecord], rfl, rfl, rfl, rfl⟩
    · have hd : r.status = .deregistered := by
        by_contra hc
        exact hno ⟨r, hl, hc⟩
      simp only [hd, if_pos rfl]
      exact ⟨_, rfl, newRecord now mid caps md, by simp [lookupRecord, newRecord], rfl, rfl, rfl, rfl⟩

/-- Witness for C4: registering a module in the empty store succeeds with
an ACTIVE record stamped at the given time. -/
theorem register_duplicate_iff_witness :
    ∃ s2, register [] 7 "A" ["vision"] [] = .ok s2 ∧
      ∃ r2, lookupRecord s2 "A" = some r2 ∧
        r2.status = .active ∧ r2.last_heartbeat = 7 ∧
        r2.capabilities = ["vision"] ∧ r2.metadata = [] :=
  (register_duplicate_iff [] 7 "A" ["vision"] []).2 (by simp [lookupRecord])

/-- Looking a module up after a pointwise store transformation that
preserves module identifiers finds the transformed record. -/
theorem lookupRecord_map (s : Store) (mid : String)
    (f : ModuleRecord → ModuleRecord)
    (hf : ∀ r, (f r).module_id = r.module_id) :
    lookupRecord (s.map f) mid = (lookupRecord s mid).map f := by
  induction s with
  | nil => rfl
  | cons a l ih =>
    by_cases h : a.module_id = mid
    · simp [lookupRecord, List.find?_cons, hf a, h]
    · simpa [lookupRecord, List.find?_cons, hf a, h] using ih

/-- C9: `deregister` is idempotent, leaves the store unchanged when every
record with the identifier is already DEREGISTERED (in particular when the
module is absent), and after it every record with the identifier has
status DEREGISTERED.  It returns a store, not an error, so it raises
nothing. -/
theorem deregister_idempotent (s : Store) (mid : String) :
    deregister (deregister s mid) mid = deregister s mid ∧
    ((∀ r ∈ s, r.module_id = mid → r.status = .deregistered) →
      deregister s mid = s) ∧
    (∀ r ∈ deregister s mid, r.module_id = mid → r.status = .deregistered) := by
  refine ⟨?_, ?_, ?_⟩
  · unfold deregister
    rw [List.map_map]
    apply List.map_congr_left
    intro r _
    by_cases h : r.module_id = mid <;> simp [Function.comp, h]
  · intro hall
    unfold deregister
    have : s.map (fun r =>
        if r.module_id = mid then { r with status := .deregistered } else r) =
        s.map id := by
      apply List.map_congr_left
      intro r hr
      by_cases h : r.module_id = mid
      · have hst := hall r hr h
        rcases r with ⟨a, b, st, c, d, e⟩
        simp only [id]
        simp only at hst
        simp [h, hst]
      · simp [h]
    rw [this, List.map_id]
  · intro r hr hid
    rcases List.mem_map.mp hr with ⟨r0, _, hr0⟩
    by_cases h : r0.module_id = mid
    · rw [← hr0]
      simp [h]
    · rw [← hr0] at hid
      simp [h] at hid

/-- Witness for C9 at a concrete store: double deregistration equals a
single one, deregistering an absent module changes nothing, and the
deregistered record indeed carries status DEREGISTERED. -/
theorem deregister_idempotent_witness :
    deregister (deregister [ModuleRecord.mk "A" ["vision"] .active 0 0 []] "A") "A" =
      deregister [ModuleRecord.mk "A" ["vision"] .active 0 0 []] "A" ∧
    deregister [ModuleRecord.mk "A" ["vision"] .active 0 0 []] "B" =
      [ModuleRecord.mk "A" ["vision"] .active 0 0 []] ∧
    ∀ r ∈ deregister [ModuleRecord.mk "A" ["vision"] .active 0 0 []] "A",
      r.module_id = "A" → r.status = .deregistered :=
  ⟨(deregister_idempotent [ModuleRecord.mk "A" ["vision"] .active 0 0 []] "A").1,
   (deregister_idempotent [ModuleRecord.mk "A" ["vision"] .active 0 0 []] "B").2.1
      (by decide),
   (deregister_idempotent [ModuleRecord.mk "A" ["vision"] .active 0 0 []] "A").2.2⟩

/-- C5: heartbeat lifecycle.  An ACTIVE module whose heartbeat is stale by
one timeout window is DEGRADED after the next monitor pass; a DEGRADED
module stale by an additional window of the same duration (two windows in
total) is UNRESPONSIVE after the next pass; and a heartbeat received in
any state except DEREGISTERED resets the module to ACTIVE with its
heartbeat timestamp refreshed. -/
theorem heartbeat_state_machine (s : Store) (timeout now : Nat)
    (mid : String) (r : ModuleRecord)
    (hl : lookupRecord s mid = some r) :
    (r.status = .active → r.last_heartbeat + timeout ≤ now →
      ∃ r2, lookupRecord (monitorPass s timeout now) mid = some r2 ∧
        r2.status = .degraded ∧ r2.last_heartbeat = r.last_heartbeat) ∧
    (r.status = .degraded → r.last_heartbeat + 2 * timeout ≤ now →
      ∃ r2, lookupRecord (monitorPass s timeout now) mid = some r2 ∧
        r2.status = .unresponsive ∧ r2.last_heartbeat = r.last_heartbeat) ∧
    (¬ r.status = .deregistered →
      ∃ s2, update_heartbeat s now mid = .ok s2 ∧
        ∃ r2, lookupRecord s2 mid = some r2 ∧
          r2.status = .active ∧ r2.last_heartbeat = now) := by
  have hmid : r.module_id = mid := by
    have := List.find?_some hl
    simpa using this
  have hmon : lookupRecord (monitorPass s timeout now) mid =
      some (monitorStep timeout now r) := by
    unfold monitorPass
    rw [lookupRecord_map s mid _ (fun q => by
      unfold monitorStep
      by_cases h1 : q.status = .active ∧ q.last_heartbeat + timeout ≤ now
      · simp [h1]
      · by_cases h2 : q.status = .degraded ∧ q.last_heartbeat + 2 * timeout ≤ now <;>
          simp [h1, h2])]
    rw [hl]
    rfl
  refine ⟨?_, ?_, ?_⟩
  · intro hst hstale
    refine ⟨monitorStep timeout now r, hmon, ?_, ?_⟩ <;>
      simp [monitorStep, hst, hstale]
  · intro hst hstale
    refine ⟨monitorStep timeout now r, hmon, ?_, ?_⟩ <;>
      simp [monitorStep, hst, hstale]
  · intro hnd
    unfold update_heartbeat
    rw [hl]
    refine ⟨_, rfl, ?_⟩
    rw [lookupRecord_map s mid _ (fun q => by
      by_cases h : q.module_id = mid ∧ ¬ q.status = .deregistered <;> simp [h])]
    rw [hl]
    refine ⟨_, rfl, ?_, ?_⟩ <;> simp [hmid, hnd]

/-- Witness for C5 at concrete records with timeout 30: an ACTIVE record
last seen at 0 is DEGRADED at time 30, a DEGRADED record last seen at 5 is
UNRESPONSIVE at time 65, and a heartbeat at time 70 restores an
UNRESPONSIVE record to ACTIVE. -/
theorem heartbeat_state_machine_witness :
    (∃ r2, lookupRecord
        (monitorPass [ModuleRecord.mk "A" [] .active 0 0 []] 30 30) "A" =
        some r2 ∧ r2.status = .degraded ∧ r2.last_heartbeat = 0) ∧
    (∃ r2, lookupRecord
        (monitorPass [ModuleRecord.mk "A" [] .degraded 5 0 []] 30 65) "A" =
        some r2 ∧ r2.status = .unresponsive ∧ r2.last_heartbeat = 5) ∧
    (∃ s2, update_heartbeat [ModuleRecord.mk "A" [] .unresponsive 5 0 []] 70 "A" =
        .ok s2 ∧ ∃ r2, lookupRecord s2 "A" = some r2 ∧
          r2.status = .active ∧ r2.last_heartbeat = 70) :=
  ⟨(heartbeat_state_machine [ModuleRecord.mk "A" [] .active 0 0 []] 30 30 "A"
      (ModuleRecord.mk "A" [] .active 0 0 []) (by decide)).1 (by decide) (by decide),
   (heartbeat_state_machine [ModuleRecord.mk "A" [] .degraded 5 0 []] 30 65 "A"
      (ModuleRecord.mk "A" [] .degraded 5 0 []) (by decide)).2.1 (by decide) (by decide),
   (heartbeat_state_machine [ModuleRecord.mk "A" [] .unresponsive 5 0 []] 30 70 "A"
      (ModuleRecord.mk "A" [] .unresponsive 5 0 []) (by decide)).2.2 (by decide)⟩

/-- Modelled from the spec: `MessageType` is the enumeration
{DIRECT, BROADCAST, CAPABILITY_QUERY, HEARTBEAT, SYSTEM} (spec §3). -/
inductive MessageType
  | direct
  | broadcast
  | capability_query
  | heartbeat
  | system
deriving DecidableEq, Repr

/-- Modelled from the spec: a `Message` carries a unique identifier, its
type, the sender, the explicit recipient set (empty for broadcast), an
opaque payload and a creation timestamp (spec §3). -/
structure Message where
  message_id : String
  msg_type : MessageType
  sender : String
  recipients : List String
  payload : String
  created_at : Nat
deriving DecidableEq, Repr

/-- Per-module inbound FIFO queues, keyed by module identifier. -/
abbrev Queues := List (String × List Message)

/-- The inbound queue of a module, when it exists. -/
def queueOf (qs : Queues) (mid : String) : Option (List Message) :=
  (qs.find? (fun p => p.1 = mid)).map (fun p => p.2)

/-- The inbound queue of a module, defaulting to empty. -/
def queueOfD (qs : Queues) (mid : String) : List Message :=
  (queueOf qs mid).getD []

/-- Whether a module has an inbound queue. -/
def hasQueue (qs : Queues) (mid : String) : Bool :=
  (queueOf qs mid).isSome

/-- Update one module's queue in place, preserving all keys. -/
def updateQueue (qs : Queues) (mid : String)
    (f : List Message → List Message) : Queues :=
  qs.map (fun p => if p.1 = mid then (p.1, f p.2) else p)

/-- Modelled from the spec: the ACTIVE module identifiers, the resolution
snapshot used for broadcast delivery (spec §3, §4.3). -/
def activeIds (s : Store) : List String :=
  (s.filter (fun r => r.status = .active)).map (fun r => r.module_id)

/-- The broker-plus-registry system state.  Besides the record store and
the per-module queues it carries two history logs used to state delivery
properties: `enqLog` records every enqueue of a message onto a module's
queue (in execution order) and `recvLog` records every successful
`receive` (in execution order). -/
structure Sys where
  store : Store
  queues : Queues
  enqLog : List (String × Message)
  recvLog : List (String × Message)
deriving DecidableEq, Repr

/-- Enqueue a message on one recipient's inbound queue, recording the
delivery in the enqueue log; dropped silently when the recipient has no
queue (spec §4.3: invalid explicit recipients are dropped, not fatal). -/
def enqueue1 (sys : Sys) (mid : String) (m : Message) : Sys :=
  if hasQueue sys.queues mid then
    { sys with
      queues := updateQueue sys.queues mid (fun q => q ++ [m])
      enqLog := sys.enqLog ++ [(mid, m)] }
  else sys

/-- Modelled from the spec: `send(message)` validates the message
invariants (DIRECT has exactly one recipient, BROADCAST has zero explicit
recipients), resolves recipients (the explicit set, or the snapshot of
currently ACTIVE module identifiers for a broadcast) and enqueues the
message onto each resolved recipient's inbound queue; it fails with
`NoRecipientsError` when resolution yields no valid recipient for a
non-broadcast message (spec §4.3). -/
def send (sys : Sys) (m : Message) : Except CoreError Sys :=
  match m.msg_type with
  | .direct =>
      match m.recipients with
      | [r] =>
          if hasQueue sys.queues r then .ok (enqueue1 sys r m)
          else .error .noRecipients
      | _ => .error .invalidMessage
  | .broadcast =>
      if m.recipients.isEmpty then
        .ok ((activeIds sys.store).foldl (fun acc r => enqueue1 acc r m) sys)
      else .error .invalidMessage
  | _ =>
      match m.recipients.filter (fun r => hasQueue sys.queues r) with
      | [] => .error .noRecipients
      | valid => .ok (valid.foldl (fun acc r => enqueue1 acc r m) sys)

/-- Modelled from the spec: `receive(module_id)` pops the head of the
recipient's inbound FIFO queue, returning absent when the queue is empty
or missing (timeout); the receive event is recorded in the receive log
(spec §4.3). -/
def receive (sys : Sys) (mid : String) : Option (Message × Sys) :=
  match queueOf sys.queues mid with
  | some (m :: _) =>
      some (m, { sys with
        queues := updateQueue sys.queues mid (fun q => q.drop 1)
        recvLog := sys.recvLog ++ [(mid, m)] })
  | _ => none

/-- Modelled from the spec: the operations of the Registry Facade
(register, deregister, heartbeat, monitor pass, send, receive)
(spec §4.4). -/
inductive SysOp
  | opRegister (now : Nat) (mid : String) (caps : List String)
      (md : List (String × String))
  | opDeregister (mid : String)
  | opHeartbeat (now : Nat) (mid : String)
  | opMonitor (timeout now : Nat)
  | opSend (m : Message)
  | opRecv (mid : String)
deriving DecidableEq, Repr

/-- Modelled from the spec: registration at the facade level also creates
the module's (empty) inbound queue (spec §2: the broker delivers through
per-module inbound queues). -/
def sysRegister (sys : Sys) (now : Nat) (mid : String) (caps : List String)
    (md : List (String × String)) : Sys :=
  match register sys.store now mid caps md with
  | .ok s2 =>
      { sys with
        store := s2
        queues := if hasQueue sys.queues mid then sys.queues
                  else sys.queues ++ [(mid, [])] }
  | .error _ => sys

/-- One facade operation applied to the system state; failing operations
leave the state unchanged (spec §7: no error is fatal, the facade remains
usable after any single operation failure). -/
def stepOp (sys : Sys) (op : SysOp) : Sys :=
  match op with
  | .opRegister now mid caps md => sysRegister sys now mid caps md
  | .opDeregister mid => { sys with store := deregister sys.store mid }
  | .opHeartbeat now mid =>
      match update_heartbeat sys.store now mid with
      | .ok s2 => { sys with store := s2 }
      | .error _ => sys
  | .opMonitor timeout now =>
      { sys with store := monitorPass sys.store timeout now }
  | .opSend m =>
      match send sys m with
      | .ok sys2 => sys2
      | .error _ => sys
  | .opRecv mid =>
      match receive sys mid with
      | some (_, sys2) => sys2
      | none => sys

/-- The system at process start: registry initialized empty (spec §3). -/
def initSys : Sys := { store := [], queues := [], enqLog := [], recvLog := [] }

/-- Run a sequence of facade operations from process start. -/
def runOps (ops : List SysOp) : Sys := ops.foldl stepOp initSys

/-- The messages a log records for one module, in log order. -/
def logOn (log : List (String × Message)) (mid : String) : List Message :=
  (log.filter (fun p => p.1 = mid)).map (fun p => p.2)

/-! ### Queue and log lemmas -/

theorem queueOf_cons (p : String × List Message) (l : Queues) (mid : String) :
    queueOf (p :: l) mid = if p.1 = mid then some p.2 else queueOf l mid := by
  by_cases h : p.1 = mid <;> simp [queueOf, List.find?_cons, h]

theorem queueOf_updateQueue (qs : Queues) (mid mid' : String)
    (f : List Message → List Message) :
    queueOf (updateQueue qs mid f) mid' =
      if mid' = mid then (queueOf qs mid).map f else queueOf qs mid' := by
  induction qs with
  | nil => by_cases h : mid' = mid <;> simp [updateQueue, queueOf, h]
  | cons p l ih =>
    have hstep : updateQueue (p :: l) mid f =
        (if p.1 = mid then (p.1, f p.2) else p) :: updateQueue l mid f := rfl
    rw [hstep]
    by_cases hp : p.1 = mid <;> by_cases h : mid' = mid <;>
      by_cases hq : p.1 = mid' <;>
      simp [hp, h, hq, queueOf_cons, ih] <;> simp_all

theorem queueOf_append_single (qs : Queues) (mid mid0 : String)
    (q0 : List Message) :
    queueOf (qs ++ [(mid0, q0)]) mid =
      ((queueOf qs mid).orElse (fun _ =>
        if mid0 = mid then some q0 else none)) := by
  induction qs with
  | nil => by_cases h : mid0 = mid <;> simp [queueOf, List.find?_cons, h]
  | cons p l ih =>
    rw [List.cons_append, queueOf_cons, queueOf_cons]
    by_cases h : p.1 = mid
    · simp [h]
    · simp only [if_neg h]
      exact ih

theorem queueOfD_append_empty (qs : Queues) (mid mid0 : String) :
    queueOfD (qs ++ [(mid0, [])]) mid = queueOfD qs mid := by
  unfold queueOfD
  rw [queueOf_append_single]
  rcases hq : queueOf qs mid with _ | q
  · by_cases h : mid0 = mid <;> simp [h, Option.orElse]
  · simp [Option.orElse]

theorem logOn_append (l1 l2 : List (String × Message)) (mid : String) :
    logOn (l1 ++ l2) mid = logOn l1 mid ++ logOn l2 mid := by
  simp [logOn, List.filter_append]

theorem logOn_single (a mid : String) (m : Message) :
    logOn [(a, m)] mid = if a = mid then [m] else [] := by
  by_cases h : a = mid <;> simp [logOn, h]

/-! ### enqueue1 lemmas -/

theorem enqueue1_store (sys : Sys) (mid : String) (m : Message) :
    (enqueue1 sys mid m).store = sys.store := by
  unfold enqueue1
  split <;> rfl

theorem enqueue1_recvLog (sys : Sys) (mid : String) (m : Message) :
    (enqueue1 sys mid m).recvLog = sys.recvLog := by
  unfold enqueue1
  split <;> rfl

theorem queueOf_enqueue1_other (sys : Sys) (r0 q : String) (m0 : Message)
    (h : ¬ q = r0) :
    queueOf (enqueue1 sys r0 m0).queues q = queueOf sys.queues q := by
  unfold enqueue1
  split
  · simp [queueOf_updateQueue, h]
  · rfl

theorem queueOfD_enqueue1_self (sys : Sys) (r0 : String) (m0 : Message)
    (hq : hasQueue sys.queues r0 = true) :
    queueOfD (enqueue1 sys r0 m0).queues r0 = queueOfD sys.queues r0 ++ [m0] := by
  unfold enqueue1
  rw [if_pos hq]
  rcases ho : queueOf sys.queues r0 with _ | q
  · rw [hasQueue, ho] at hq
    simp at hq
  · simp [queueOfD, queueOf_updateQueue, ho]

theorem hasQueue_enqueue1 (sys : Sys) (r0 q : String) (m0 : Message) :
    hasQueue (enqueue1 sys r0 m0).queues q = hasQueue sys.queues q := by
  unfold enqueue1
  split
  · unfold hasQueue
    rw [queueOf_updateQueue]
    by_cases h : q = r0 <;> simp [h]
  · rfl

theorem notMem_queueOfD_enqueue1 (sys : Sys) (r0 q : String) (m m0 : Message)
    (hne : ¬ m0 = m) (h : ¬ m ∈ queueOfD sys.queues q) :
    ¬ m ∈ queueOfD (enqueue1 sys r0 m0).queues q := by
  by_cases hq : q = r0
  · subst hq
    by_cases hh : hasQueue sys.queues q = true
    · rw [queueOfD_enqueue1_self sys q m0 hh]
      intro hc
      rcases List.mem_append.mp hc with hc | hc
      · exact h hc
      · simp at hc
        exact hne hc.symm
    · unfold enqueue1
      rw [if_neg hh]
      exact h
  · unfold queueOfD
    rw [queueOf_enqueue1_other sys r0 q m0 hq]
    exact h

theorem notMem_queueOfD_foldl_enqueue1 (m m0 : Message) (hne : ¬ m0 = m) :
    ∀ (ids : List String) (sys : Sys) (q : String),
      ¬ m ∈ queueOfD sys.queues q →
      ¬ m ∈ queueOfD ((ids.foldl (fun a r => enqueue1 a r m0) sys)).queues q := by
  intro ids
  induction ids with
  | nil => intro sys q h; exact h
  | cons i rest ih =>
      intro sys q h
      exact ih (enqueue1 sys i m0) q (notMem_queueOfD_enqueue1 sys i q m m0 hne h)

theorem recvLog_foldl_enqueue1 (m0 : Message) :
    ∀ (ids : List String) (sys : Sys),
      ((ids.foldl (fun a r => enqueue1 a r m0) sys)).recvLog = sys.recvLog := by
  intro ids
  induction ids with
  | nil => intro sys; rfl
  | cons i rest ih =>
      intro sys
      simp only [List.foldl_cons]
      rw [ih]
      exact enqueue1_recvLog sys i m0

theorem store_foldl_enqueue1 (m0 : Message) :
    ∀ (ids : List String) (sys : Sys),
      ((ids.foldl (fun a r => enqueue1 a r m0) sys)).store = sys.store := by
  intro ids
  induction ids with
  | nil => intro sys; rfl
  | cons i rest ih =>
      intro sys
      simp only [List.foldl_cons]
      rw [ih]
      exact enqueue1_store sys i m0

/-! ### Effects of send and receive -/

theorem send_ok_store (sys : Sys) (m : Message) (sys2 : Sys)
    (h : send sys m = .ok sys2) : sys2.store = sys.store := by
  unfold send at h
  cases hm : m.msg_type <;> rw [hm] at h
  · rcases hr : m.recipients with _ | ⟨r, _ | ⟨r2, rl⟩⟩ <;> rw [hr] at h
    · simp at h
    · by_cases hq : hasQueue sys.queues r = true <;> simp [hq] at h
      rw [← h, enqueue1_store]
    · simp at h
  · by_cases he : m.recipients.isEmpty <;> simp [he] at h
    rw [← h, store_foldl_enqueue1]
  all_goals {
    rcases hv : m.recipients.filter (fun r => hasQueue sys.queues r) with _ | ⟨v, vs⟩ <;>
      rw [hv] at h
    · simp at h
    · simp only [Except.ok.injEq] at h
      rw [← h, store_foldl_enqueue1] }

theorem receive_some (sys : Sys) (mid : String) (m : Message) (sys2 : Sys)
    (h : receive sys mid = some (m, sys2)) :
    ∃ rest, queueOf sys.queues mid = some (m :: rest) ∧
      sys2.store = sys.store ∧ sys2.enqLog = sys.enqLog ∧
      sys2.queues = updateQueue sys.queues mid (fun q => q.drop 1) ∧
      sys2.recvLog = sys.recvLog ++ [(mid, m)] := by
  unfold receive at h
  rcases ho : queueOf sys.queues mid with _ | q <;> rw [ho] at h
  · simp at h
  · rcases q with _ | ⟨m0, rest⟩
    · simp at h
    · simp only [Option.some.injEq, Prod.mk.injEq] at h
      obtain ⟨hm, hs⟩ := h
      subst hm
      exact ⟨rest, rfl, by rw [← hs], by rw [← hs], by rw [← hs], by rw [← hs]⟩

/-! ### The per-recipient FIFO invariant -/

/-- For every module, the messages it has received followed by the
messages still waiting in its queue are exactly the messages that were
enqueued for it, in enqueue order. -/
def QueueInv (sys : Sys) : Prop :=
  ∀ mid, logOn sys.recvLog mid ++ queueOfD sys.queues mid =
    logOn sys.enqLog mid

theorem enqueue1_QueueInv (sys : Sys) (r0 : String) (m0 : Message)
    (h : QueueInv sys) : QueueInv (enqueue1 sys r0 m0) := by
  intro mid
  by_cases hq : hasQueue sys.queues r0 = true
  · have he : (enqueue1 sys r0 m0).enqLog = sys.enqLog ++ [(r0, m0)] := by
      unfold enqueue1
      rw [if_pos hq]
    by_cases hm : mid = r0
    · subst hm
      rw [enqueue1_recvLog, queueOfD_enqueue1_self sys mid m0 hq, he,
        logOn_append, logOn_single, if_pos rfl, ← h mid, List.append_assoc]
    · rw [enqueue1_recvLog, he, logOn_append, logOn_single]
      unfold queueOfD
      rw [queueOf_enqueue1_other sys r0 mid m0 hm,
        if_neg (fun hc => hm hc.symm), List.append_nil]
      exact h mid
  · unfold enqueue1
    rw [if_neg hq]
    exact h mid

theorem foldl_enqueue1_QueueInv (m0 : Message) :
    ∀ (ids : List String) (sys : Sys), QueueInv sys →
      QueueInv (ids.foldl (fun a r => enqueue1 a r m0) sys) := by
  intro ids
  induction ids with
  | nil => intro sys h; exact h
  | cons i rest ih =>
      intro sys h
      simp only [List.foldl_cons]
      exact ih _ (enqueue1_QueueInv sys i m0 h)

theorem send_ok_QueueInv (sys : Sys) (m : Message) (sys2 : Sys)
    (hs : send sys m = .ok sys2) (h : QueueInv sys) : QueueInv sys2 := by
  unfold send at hs
  cases hm : m.msg_type <;> rw [hm] at hs
  · rcases hr : m.recipients with _ | ⟨r, _ | ⟨r2, rl⟩⟩ <;> rw [hr] at hs
    · simp at hs
    · by_cases hq : hasQueue sys.queues r = true <;> simp [hq] at hs
      rw [← hs]
      exact enqueue1_QueueInv sys r m h
    · simp at hs
  · by_cases he : m.recipients.isEmpty <;> simp [he] at hs
    rw [← hs]
    exact foldl_enqueue1_QueueInv m _ sys h
  all_goals {
    rcases hv : m.recipients.filter (fun r => hasQueue sys.queues r) with _ | ⟨v, vs⟩ <;>
      rw [hv] at hs
    · simp at hs
    · simp only [Except.ok.injEq] at hs
      rw [← hs]
      exact foldl_enqueue1_QueueInv m _ sys h }

theorem receive_some_QueueInv (sys : Sys) (mid : String) (m : Message)
    (sys2 : Sys) (hr : receive sys mid = some (m, sys2)) (h : QueueInv sys) :
    QueueInv sys2 := by
  obtain ⟨rest, hq, _, henq, hques, hrecv⟩ := receive_some sys mid m sys2 hr
  intro mid'
  rw [henq, hques, hrecv, logOn_append, logOn_single]
  by_cases hm : mid' = mid
  · subst hm
    rw [if_pos rfl]
    unfold queueOfD
    rw [queueOf_updateQueue, if_pos rfl, hq]
    have := h mid'
    unfold queueOfD at this
    rw [hq] at this
    simp only [Option.map_some, Option.getD_some, List.drop_one,
      List.tail_cons]
    rw [List.append_assoc, List.singleton_append]
    exact this
  · rw [if_neg (fun hc => hm hc.symm), List.append_nil]
    unfold queueOfD
    rw [queueOf_updateQueue, if_neg hm]
    exact h mid'

theorem stepOp_QueueInv (sys : Sys) (op : SysOp) (h : QueueInv sys) :
    QueueInv (stepOp sys op) := by
  cases op with
  | opRegister now mid caps md =>
      simp only [stepOp]
      unfold sysRegister
      cases register sys.store now mid caps md with
      | error e => intro mid'; exact h mid'
      | ok s2 =>
          intro mid'
          show logOn sys.recvLog mid' ++
            queueOfD (if hasQueue sys.queues mid = true then sys.queues
              else sys.queues ++ [(mid, [])]) mid' = logOn sys.enqLog mid'
          by_cases hq : hasQueue sys.queues mid = true
          · rw [if_pos hq]
            exact h mid'
          · rw [if_neg hq, queueOfD_append_empty]
            exact h mid'
  | opDeregister mid => intro mid'; exact h mid'
  | opHeartbeat now mid =>
      simp only [stepOp]
      cases update_heartbeat sys.store now mid with
      | error e => intro mid'; exact h mid'
      | ok s2 => intro mid'; exact h mid'
  | opMonitor timeout now => intro mid'; exact h mid'
  | opSend m =>
      simp only [stepOp]
      cases hs : send sys m with
      | error e => intro mid'; exact h mid'
      | ok sys2 => exact send_ok_QueueInv sys m sys2 hs h
  | opRecv mid =>
      simp only [stepOp]
      cases hrcv : receive sys mid with
      | none => intro mid'; exact h mid'
      | some p =>
          obtain ⟨m, sys2⟩ := p
          exact receive_some_QueueInv sys mid m sys2 hrcv h

/-- A property preserved by every facade operation holds after any run. -/
theorem foldl_stepOp_invariant (P : Sys → Prop)
    (hstep : ∀ sys op, P sys → P (stepOp sys op)) :
    ∀ (ops : List SysOp) (sys : Sys), P sys → P (ops.foldl stepOp sys) := by
  intro ops
  induction ops with
  | nil => intro sys h; exact h
  | cons op rest ih =>
      intro sys h
      simp only [List.foldl_cons]
      exact ih _ (hstep sys op h)

theorem runOps_QueueInv (ops : List SysOp) : QueueInv (runOps ops) := by
  unfold runOps
  apply foldl_stepOp_invariant QueueInv stepOp_QueueInv
  intro mid
  rfl

/-! ### Identifier uniqueness invariant -/

/-- No two records in the store share a module identifier. -/
def idsDistinct (s : Store) : Prop :=
  s.Pairwise (fun a b => ¬ a.module_id = b.module_id)

theorem idsDistinct_map (s : Store) (f : ModuleRecord → ModuleRecord)
    (hf : ∀ r, (f r).module_id = r.module_id) (h : idsDistinct s) :
    idsDistinct (s.map f) := by
  unfold idsDistinct at *
  rw [List.pairwise_map]
  exact h.imp (fun hab => by rw [hf, hf]; exact hab)

theorem register_idsDistinct (s : Store) (now : Nat) (mid : String)
    (caps : List String) (md : List (String × String)) (s2 : Store)
    (h : idsDistinct s) (hreg : register s now mid caps md = .ok s2) :
    idsDistinct s2 := by
  unfold register at hreg
  rcases hl : lookupRecord s mid with _ | r <;> rw [hl] at hreg
  · simp only [Except.ok.injEq] at hreg
    subst hreg
    refine List.Pairwise.cons ?_ h
    intro b hb
    have hnb : ¬ (b.module_id = mid) := by
      have hnone := hl
      unfold lookupRecord at hnone
      rw [List.find?_eq_none] at hnone
      simpa using hnone b hb
    show ¬ (newRecord now mid caps md).module_id = b.module_id
    exact fun hc => hnb ((congrArg id hc).symm.trans rfl)
  · by_cases hd : r.status = .deregistered
    · simp only [hd, if_true, Except.ok.injEq] at hreg
      subst hreg
      refine List.Pairwise.cons ?_ (h.filter _)
      intro b hb
      have hbmem := List.mem_filter.mp hb
      have hnb : ¬ b.module_id = mid := by simpa using hbmem.2
      show ¬ (newRecord now mid caps md).module_id = b.module_id
      exact fun hc => hnb ((congrArg id hc).symm.trans rfl)
    · simp [hd] at hreg

theorem update_heartbeat_idsDistinct (s : Store) (now : Nat) (mid : String)
    (s2 : Store) (h : idsDistinct s)
    (hu : update_heartbeat s now mid = .ok s2) : idsDistinct s2 := by
  unfold update_heartbeat at hu
  rcases hl : lookupRecord s mid with _ | r <;> rw [hl] at hu
  · exact absurd hu (by simp)
  · simp only [Except.ok.injEq] at hu
    subst hu
    apply idsDistinct_map s _ _ h
    intro q
    by_cases hc : q.module_id = mid ∧ ¬ q.status = .deregistered <;> simp [hc]

theorem stepOp_idsDistinct (sys : Sys) (op : SysOp)
    (h : idsDistinct sys.store) : idsDistinct (stepOp sys op).store := by
  cases op with
  | opRegister now mid caps md =>
      simp only [stepOp]
      unfold sysRegister
      cases hreg : register sys.store now mid caps md with
      | error e => exact h
      | ok s2 => exact register_idsDistinct sys.store now mid caps md s2 h hreg
  | opDeregister mid =>
      apply idsDistinct_map sys.store _ _ h
      intro q
      by_cases hc : q.module_id = mid <;> simp [hc]
  | opHeartbeat now mid =>
      simp only [stepOp]
      cases hu : update_heartbeat sys.store now mid with
      | error e => exact h
      | ok s2 => exact update_heartbeat_idsDistinct sys.store now mid s2 h hu
  | opMonitor timeout now =>
      apply idsDistinct_map sys.store _ _ h
      intro q
      unfold monitorStep
      by_cases h1 : q.status = .active ∧ q.last_heartbeat + timeout ≤ now
      · simp [h1]
      · by_cases h2 : q.status = .degraded ∧ q.last_heartbeat + 2 * timeout ≤ now <;>
          simp [h1, h2]
  | opSend m =>
      simp only [stepOp]
      cases hs : send sys m with
      | error e => exact h
      | ok sys2 => rw [send_ok_store sys m sys2 hs]; exact h
  | opRecv mid =>
      simp only [stepOp]
      cases hrcv : receive sys mid with
      | none => exact h
      | some p =>
          obtain ⟨m, sys2⟩ := p
          obtain ⟨rest, _, hstore, _, _, _⟩ := receive_some sys mid m sys2 hrcv
          rw [hstore]
          exact h

/-- C3: for every sequence of facade calls (in particular every sequence
of register and deregister calls) the Module Record Store never contains
two non-DEREGISTERED records with the same module identifier.  The proof
establishes the stronger invariant that all stored records have pairwise
distinct identifiers. -/
theorem store_unique_ids (ops : List SysOp) :
    (runOps ops).store.Pairwise (fun a b =>
      ¬ (¬ a.status = .deregistered ∧ ¬ b.status = .deregistered ∧
        a.module_id = b.module_id)) := by
  have hd : idsDistinct (runOps ops).store := by
    unfold runOps
    have := foldl_stepOp_invariant (fun sys => idsDistinct sys.store)
      stepOp_idsDistinct ops initSys (by exact List.Pairwise.nil)
    exact this
  exact hd.imp (fun hab hc => hab hc.2.2)

/-- C8: per-recipient FIFO ordering.  For every run, the messages a module
has received are exactly an initial prefix, in order, of the messages that
were enqueued for it (send order for that recipient).  Hence if m1 is sent
to a recipient before m2, under any interleaving of sends to other
recipients, m1 is received before m2; no ordering across distinct
recipients is stated. -/
theorem per_recipient_fifo (ops : List SysOp) (mid : String) :
    logOn (runOps ops).recvLog mid ++ queueOfD (runOps ops).queues mid =
      logOn (runOps ops).enqLog mid ∧
    logOn (runOps ops).recvLog mid =
      (logOn (runOps ops).enqLog mid).take
        (logOn (runOps ops).recvLog mid).length := by
  have h := runOps_QueueInv ops mid
  refine ⟨h, ?_⟩
  rw [← h, List.take_left]

/-! ### No delivery without an enqueue -/

theorem send_ok_recvLog (sys : Sys) (m : Message) (sys2 : Sys)
    (h : send sys m = .ok sys2) : sys2.recvLog = sys.recvLog := by
  unfold send at h
  cases hm : m.msg_type <;> rw [hm] at h
  · rcases hr : m.recipients with _ | ⟨r, _ | ⟨r2, rl⟩⟩ <;> rw [hr] at h
    · simp at h
    · by_cases hq : hasQueue sys.queues r = true <;> simp [hq] at h
      rw [← h, enqueue1_recvLog]
    · simp at h
  · by_cases he : m.recipients.isEmpty <;> simp [he] at h
    rw [← h, recvLog_foldl_enqueue1]
  all_goals {
    rcases hv : m.recipients.filter (fun r => hasQueue sys.queues r) with _ | ⟨v, vs⟩ <;>
      rw [hv] at h
    · simp at h
    · simp only [Except.ok.injEq] at h
      rw [← h, recvLog_foldl_enqueue1] }

theorem send_ok_notMem (sys : Sys) (m0 : Message) (sys2 : Sys)
    (hs : send sys m0 = .ok sys2) (m : Message) (q : String)
    (hne : ¬ m0 = m) (h1 : ¬ m ∈ queueOfD sys.queues q) :
    ¬ m ∈ queueOfD sys2.queues q := by
  unfold send at hs
  cases hm : m0.msg_type <;> rw [hm] at hs
  · rcases hr : m0.recipients with _ | ⟨r, _ | ⟨r2, rl⟩⟩ <;> rw [hr] at hs
    · simp at hs
    · by_cases hq : hasQueue sys.queues r = true <;> simp [hq] at hs
      rw [← hs]
      exact notMem_queueOfD_enqueue1 sys r q m m0 hne h1
    · simp at hs
  · by_cases he : m0.recipients.isEmpty <;> simp [he] at hs
    rw [← hs]
    exact notMem_queueOfD_foldl_enqueue1 m m0 hne _ sys q h1
  all_goals {
    rcases hv : m0.recipients.filter (fun r => hasQueue sys.queues r) with _ | ⟨v, vs⟩ <;>
      rw [hv] at hs
    · simp at hs
    · simp only [Except.ok.injEq] at hs
      rw [← hs]
      exact notMem_queueOfD_foldl_enqueue1 m m0 hne _ sys q h1 }

/-- One facade operation can put message `m` into module `q`'s queue or
receive log only by sending `m` itself, and a direct send of `m` reaches
only its single recipient. -/
theorem stepOp_no_new (m : Message) (q : String) (sys : Sys) (op : SysOp)
    (hop : ∀ m0, op = SysOp.opSend m0 →
      (¬ m0 = m) ∨
      (m0.msg_type = .direct ∧ ∃ r, m0.recipients = [r] ∧ ¬ q = r))
    (h1 : ¬ m ∈ queueOfD sys.queues q) (h2 : ¬ m ∈ logOn sys.recvLog q) :
    ¬ m ∈ queueOfD (stepOp sys op).queues q ∧
      ¬ m ∈ logOn (stepOp sys op).recvLog q := by
  cases op with
  | opRegister now mid caps md =>
      simp only [stepOp]
      unfold sysRegister
      cases register sys.store now mid caps md with
      | error e => exact ⟨h1, h2⟩
      | ok s2 =>
          refine ⟨?_, h2⟩
          show ¬ m ∈ queueOfD (if hasQueue sys.queues mid = true then sys.queues
            else sys.queues ++ [(mid, [])]) q
          by_cases hq : hasQueue sys.queues mid = true
          · rw [if_pos hq]
            exact h1
          · rw [if_neg hq, queueOfD_append_empty]
            exact h1
  | opDeregister mid => exact ⟨h1, h2⟩
  | opHeartbeat now mid =>
      simp only [stepOp]
      cases update_heartbeat sys.store now mid with
      | error e => exact ⟨h1, h2⟩
      | ok s2 => exact ⟨h1, h2⟩
  | opMonitor timeout now => exact ⟨h1, h2⟩
  | opSend m0 =>
      simp only [stepOp]
      cases hs : send sys m0 with
      | error e => exact ⟨h1, h2⟩
      | ok sys2 =>
          refine ⟨?_, by rw [send_ok_recvLog sys m0 sys2 hs]; exact h2⟩
          rcases hop m0 rfl with hne | ⟨htd, r, hrd, hqr⟩
          · exact send_ok_notMem sys m0 sys2 hs m q hne h1
          · unfold send at hs
            rw [htd, hrd] at hs
            by_cases hq : hasQueue sys.queues r = true <;> simp [hq] at hs
            rw [← hs]
            unfold queueOfD
            rw [queueOf_enqueue1_other sys r q m0 hqr]
            exact h1
  | opRecv mid =>
      simp only [stepOp]
      cases hrcv : receive sys mid with
      | none => exact ⟨h1, h2⟩
      | some p =>
          obtain ⟨m0, sys2⟩ := p
          obtain ⟨rest, hqm, _, _, hques, hrecv⟩ := receive_some sys mid m0 sys2 hrcv
          constructor
          · rw [hques]
            unfold queueOfD
            rw [queueOf_updateQueue]
            by_cases hq : q = mid
            · subst hq
              rw [if_pos rfl, hqm]
              simp only [Option.map_some, Option.getD_some, List.drop_one,
                List.tail_cons]
              intro hc
              apply h1
              unfold queueOfD
              rw [hqm]
              simp only [Option.getD_some]
              exact List.mem_cons_of_mem m0 hc
            · rw [if_neg hq]
              exact h1
          · rw [hrecv, logOn_append, logOn_single]
            by_cases hq : mid = q
            · rw [if_pos hq]
              intro hc
              rcases List.mem_append.mp hc with hc | hc
              · exact h2 hc
              · have hm0 : m = m0 := by simpa using hc
                subst hm0
                apply h1
                unfold queueOfD
                rw [← hq, hqm]
                simp only [Option.getD_some]
                exact List.mem_cons_self m rest
            · rw [if_neg hq, List.append_nil]
              exact h2

/-- A run containing no send that could put `m` into `q`'s queue never
makes `q` receive `m`. -/
theorem run_no_new (m : Message) (q : String) :
    ∀ (ops : List SysOp) (sys : Sys),
      (∀ op ∈ ops, ∀ m0, op = SysOp.opSend m0 →
        (¬ m0 = m) ∨
        (m0.msg_type = .direct ∧ ∃ r, m0.recipients = [r] ∧ ¬ q = r)) →
      ¬ m ∈ queueOfD sys.queues q → ¬ m ∈ logOn sys.recvLog q →
      ¬ m ∈ queueOfD ((ops.foldl stepOp sys)).queues q ∧
        ¬ m ∈ logOn ((ops.foldl stepOp sys)).recvLog q := by
  intro ops
  induction ops with
  | nil => intro sys _ h1 h2; exact ⟨h1, h2⟩
  | cons op rest ih =>
      intro sys hops h1 h2
      simp only [List.foldl_cons]
      obtain ⟨h3, h4⟩ := stepOp_no_new m q sys op
        (hops op (List.mem_cons_self op rest)) h1 h2
      exact ih _ (fun op2 hmem => hops op2 (List.mem_cons_of_mem op hmem)) h3 h4

/-- C6: a DIRECT message with a valid single recipient is enqueued on that
recipient's queue (and, once at the head, `receive` returns that very
message, hence with the same payload and message identifier), all other
queues are untouched, and in every run no module other than the recipient
ever receives it. -/
theorem direct_delivery (sys : Sys) (m : Message) (r : String)
    (ht : m.msg_type = .direct) (hr : m.recipients = [r])
    (hq : hasQueue sys.queues r = true) :
    (∃ sys2, send sys m = .ok sys2 ∧
      queueOfD sys2.queues r = queueOfD sys.queues r ++ [m] ∧
      (∀ q, ¬ q = r → queueOf sys2.queues q = queueOf sys.queues q) ∧
      (queueOfD sys.queues r = [] →
        ∃ sys3, receive sys2 r = some (m, sys3))) ∧
    (∀ (ops : List SysOp) (q : String), ¬ q = r →
      ¬ m ∈ logOn (runOps ops).recvLog q) := by
  constructor
  · have hsend : send sys m = .ok (enqueue1 sys r m) := by
      simp [send, ht, hr, hq]
    refine ⟨enqueue1 sys r m, hsend, queueOfD_enqueue1_self sys r m hq,
      fun q hqr => queueOf_enqueue1_other sys r q m hqr, ?_⟩
    intro hempty
    have hqsome : queueOf (enqueue1 sys r m).queues r = some [m] := by
      unfold enqueue1
      rw [if_pos hq]
      show queueOf (updateQueue sys.queues r (fun q => q ++ [m])) r = some [m]
      rw [queueOf_updateQueue, if_pos rfl]
      rcases ho : queueOf sys.queues r with _ | q0
      · rw [hasQueue, ho] at hq
        simp at hq
      · have hq0 : q0 = [] := by
          unfold queueOfD at hempty
          rw [ho] at hempty
          simpa using hempty
        subst hq0
        rfl
    refine ⟨{ enqueue1 sys r m with
        queues := updateQueue (enqueue1 sys r m).queues r (fun q => q.drop 1)
        recvLog := (enqueue1 sys r m).recvLog ++ [(r, m)] }, ?_⟩
    unfold receive
    rw [hqsome]
  · intro ops q hqr
    have hcond : ∀ op ∈ ops, ∀ m0, op = SysOp.opSend m0 →
        (¬ m0 = m) ∨
        (m0.msg_type = .direct ∧ ∃ rr, m0.recipients = [rr] ∧ ¬ q = rr) := by
      intro op _ m0 _
      by_cases he : m0 = m
      · subst he
        exact Or.inr ⟨ht, r, hr, hqr⟩
      · exact Or.inl he
    exact (run_no_new m q ops initSys hcond
      (by simp [queueOfD, queueOf, initSys])
      (by simp [logOn, initSys])).2

/-- A concrete one-module system used to witness direct delivery. -/
def wSys : Sys :=
  { store := [newRecord 0 "B" [] []]
    queues := [("B", [])]
    enqLog := []
    recvLog := [] }

/-- A concrete DIRECT message from "A" to "B" used to witness direct
delivery. -/
def wMsg : Message :=
  { message_id := "m1"
    msg_type := .direct
    sender := "A"
    recipients := ["B"]
    payload := "ping"
    created_at := 1 }

/-- Witness for C6: sending the concrete DIRECT message to "B" appends it
to "B"'s (empty) queue, touches no other queue, and `receive "B"` returns
the message itself. -/
theorem direct_delivery_witness :
    ∃ sys2, send wSys wMsg = .ok sys2 ∧
      queueOfD sys2.queues "B" = queueOfD wSys.queues "B" ++ [wMsg] ∧
      (∀ q, ¬ q = "B" → queueOf sys2.queues q = queueOf wSys.queues q) ∧
      (queueOfD wSys.queues "B" = [] →
        ∃ sys3, receive sys2 "B" = some (wMsg, sys3)) :=
  (direct_delivery wSys wMsg "B" rfl rfl (by decide)).1

/-- Enqueuing one message for a duplicate-free list of recipients that all
have queues appends exactly one copy per listed recipient and leaves every
other queue untouched. -/
theorem queueOf_foldl_enqueue1 (m0 : Message) :
    ∀ (ids : List String) (sys : Sys) (q : String), ids.Nodup →
      (∀ i ∈ ids, hasQueue sys.queues i = true) →
      queueOf ((ids.foldl (fun a r => enqueue1 a r m0) sys)).queues q =
        if q ∈ ids then (queueOf sys.queues q).map (fun l => l ++ [m0])
        else queueOf sys.queues q := by
  intro ids
  induction ids with
  | nil =>
      intro sys q _ _
      simp
  | cons i rest ih =>
      intro sys q hnd hq
      simp only [List.foldl_cons]
      have hqi : hasQueue sys.queues i = true := hq i (List.mem_cons_self i rest)
      have hrest : ∀ j ∈ rest, hasQueue (enqueue1 sys i m0).queues j = true := by
        intro j hj
        rw [hasQueue_enqueue1]
        exact hq j (List.mem_cons_of_mem i hj)
      have hnd2 : rest.Nodup := (List.nodup_cons.mp hnd).2
      have hni : ¬ i ∈ rest := (List.nodup_cons.mp hnd).1
      rw [ih (enqueue1 sys i m0) q hnd2 hrest]
      by_cases hqr : q ∈ rest
      · rw [if_pos hqr, if_pos (List.mem_cons_of_mem i hqr)]
        have hqi2 : ¬ q = i := fun hc => hni (hc ▸ hqr)
        rw [queueOf_enqueue1_other sys i q m0 hqi2]
      · rw [if_neg hqr]
        by_cases hqe : q = i
        · subst hqe
          rw [if_pos (List.mem_cons_self q rest)]
          unfold enqueue1
          rw [if_pos hqi]
          show queueOf (updateQueue sys.queues q (fun l => l ++ [m0])) q =
            (queueOf sys.queues q).map (fun l => l ++ [m0])
          rw [queueOf_updateQueue, if_pos rfl]
        · rw [if_neg (by simp [List.mem_cons, hqe, hqr]),
            queueOf_enqueue1_other sys i q m0 hqe]

/-- C7: a BROADCAST message is enqueued exactly once for every module that
was ACTIVE at send time (the delivery set is the snapshot of ACTIVE
modules at send time); modules outside the snapshot have their queues
untouched, and — as long as the message is never sent again — a module
that was absent from the snapshot (in particular one that registers after
the send) never receives it. -/
theorem broadcast_delivery (sys : Sys) (m : Message)
    (ht : m.msg_type = .broadcast) (hr : m.recipients = [])
    (hnd : (activeIds sys.store).Nodup)
    (hq : ∀ mid ∈ activeIds sys.store, hasQueue sys.queues mid = true) :
    ∃ sys2, send sys m = .ok sys2 ∧
      (∀ mid ∈ activeIds sys.store,
        queueOfD sys2.queues mid = queueOfD sys.queues mid ++ [m]) ∧
      (∀ mid ∈ activeIds sys.store, ¬ m ∈ queueOfD sys.queues mid →
        List.count m (queueOfD sys2.queues mid) = 1) ∧
      (∀ mid, ¬ mid ∈ activeIds sys.store →
        queueOf sys2.queues mid = queueOf sys.queues mid) ∧
      (∀ (ops : List SysOp) (mid : String), ¬ mid ∈ activeIds sys.store →
        (∀ op ∈ ops, ¬ op = SysOp.opSend m) →
        ¬ m ∈ queueOfD sys.queues mid → ¬ m ∈ logOn sys.recvLog mid →
        ¬ m ∈ logOn ((ops.foldl stepOp sys2)).recvLog mid) := by
  have hsend : send sys m =
      .ok ((activeIds sys.store).foldl (fun a r => enqueue1 a r m) sys) := by
    simp [send, ht, hr]
  set sys2 := (activeIds sys.store).foldl (fun a r => enqueue1 a r m) sys with hsys2
  have hself : ∀ mid ∈ activeIds sys.store,
      queueOfD sys2.queues mid = queueOfD sys.queues mid ++ [m] := by
    intro mid hmem
    unfold queueOfD
    rw [hsys2, queueOf_foldl_enqueue1 m (activeIds sys.store) sys mid hnd hq,
      if_pos hmem]
    rcases ho : queueOf sys.queues mid with _ | q0
    · have := hq mid hmem
      rw [hasQueue, ho] at this
      simp at this
    · rfl
  have hother : ∀ mid, ¬ mid ∈ activeIds sys.store →
      queueOf sys2.queues mid = queueOf sys.queues mid := by
    intro mid hmem
    rw [hsys2, queueOf_foldl_enqueue1 m (activeIds sys.store) sys mid hnd hq,
      if_neg hmem]
  refine ⟨sys2, hsend, hself, ?_, hother, ?_⟩
  · intro mid hmem hnm
    rw [hself mid hmem, List.count_append]
    rw [List.count_eq_zero_of_not_mem hnm]
    simp
  · intro ops mid hmem hops h1 h2
    have hcond : ∀ op ∈ ops, ∀ m0, op = SysOp.opSend m0 →
        (¬ m0 = m) ∨
        (m0.msg_type = .direct ∧ ∃ rr, m0.recipients = [rr] ∧ ¬ mid = rr) := by
      intro op hop m0 he
      left
      intro hc
      exact hops op hop (by rw [he, hc])
    have h1b : ¬ m ∈ queueOfD sys2.queues mid := by
      unfold queueOfD
      rw [hother mid hmem]
      exact h1
    have h2b : ¬ m ∈ logOn sys2.recvLog mid := by
      rw [hsys2, recvLog_foldl_enqueue1]
      exact h2
    exact (run_no_new m mid ops sys2 hcond h1b h2b).2

/-- A concrete two-module system ("A" and "B" both ACTIVE, empty queues)
used to witness broadcast delivery. -/
def bSys : Sys :=
  { store := [newRecord 0 "A" [] [], newRecord 0 "B" [] []]
    queues := [("A", []), ("B", [])]
    enqLog := []
    recvLog := [] }

/-- A concrete BROADCAST message used to witness broadcast delivery. -/
def bMsg : Message :=
  { message_id := "b1"
    msg_type := .broadcast
    sender := "A"
    recipients := []
    payload := "hello"
    created_at := 2 }

/-- Witness for C7: broadcasting in the concrete two-module system
enqueues exactly one copy for each of the two ACTIVE modules and touches
no other queue; a module outside the snapshot never receives it in any
later run without a resend. -/
theorem broadcast_delivery_witness :
    ∃ sys2, send bSys bMsg = .ok sys2 ∧
      (∀ mid ∈ activeIds bSys.store,
        queueOfD sys2.queues mid = queueOfD bSys.queues mid ++ [bMsg]) ∧
      (∀ mid ∈ activeIds bSys.store, ¬ bMsg ∈ queueOfD bSys.queues mid →
        List.count bMsg (queueOfD sys2.queues mid) = 1) ∧
      (∀ mid, ¬ mid ∈ activeIds bSys.store →
        queueOf sys2.queues mid = queueOf bSys.queues mid) ∧
      (∀ (ops : List SysOp) (mid : String), ¬ mid ∈ activeIds bSys.store →
        (∀ op ∈ ops, ¬ op = SysOp.opSend bMsg) →
        ¬ bMsg ∈ queueOfD bSys.queues mid → ¬ bMsg ∈ logOn bSys.recvLog mid →
        ¬ bMsg ∈ logOn ((ops.foldl stepOp sys2)).recvLog mid) :=
  broadcast_delivery bSys bMsg rfl rfl (by decide) (by decide)

end ACDIN
